import Mathlib

/-!
Verification of the VIAF (Virtual International Authority File) record
transformation implemented in `viaf.py`.

The Python class `VIAF` fetches a JSON authority record, normalizes it
(`parse_data`), and builds a TEI XML fragment (`create_element`).  This file
gives a shallow embedding of that code: strings are Lean `String`s (often
manipulated through their character lists), Python dictionaries become
structures, Python exceptions become an explicit `Except PyErr` result, and
the JSON fields that arrive either as a single mapping or as a list become an
explicit sum type `SoL`.  The network is an oracle function supplied as an
argument, and the recursion of `fetch_data` over merge redirects is given
explicit fuel (Python would eventually raise `RecursionError` on an unbounded
redirect chain, which the fuel-exhaustion error models).
-/

/-- Python exceptions that the embedded code can raise.  `unboundLocalError`
models the use of a local variable before assignment, `attributeError` the
access of a never-assigned instance attribute, `valueError` the error raised
by `max()` on an empty sequence or by unpacking a split of the wrong arity,
`typeError` the subscript of `None`, and `recursionError` exhaustion of the
interpreter stack by an unbounded redirect chain. -/
inductive PyErr where
  | unboundLocalError
  | attributeError
  | valueError
  | typeError
  | recursionError
  deriving DecidableEq, Repr

/-! ### Character-list helpers shared by the embeddings -/

/-- Python `str.zfill(w)` on a character list: left-pad with `'0'` to total
length `w`; a leading sign is kept in front of the inserted zeros. -/
def zfill (w : Nat) (l : List Char) : List Char :=
  if w ≤ l.length then l
  else
    match l with
    | c :: rest =>
        if c = '-' ∨ c = '+' then c :: List.replicate (w - l.length) '0' ++ rest
        else List.replicate (w - l.length) '0' ++ l
    | [] => List.replicate w '0'

/-- `re.sub(r"\s+", " ", s)`: collapse every maximal whitespace run to a
single space.  The boolean records whether the previous character was
whitespace (i.e. whether we are inside a run). -/
def collapseWs : Bool → List Char → List Char
  | _, [] => []
  | inRun, c :: rest =>
      if c.isWhitespace then
        if inRun then collapseWs true rest else ' ' :: collapseWs true rest
      else c :: collapseWs false rest

/-- `re.sub(r"(\d+)-", r"\1–", s)`: a hyphen immediately preceded by a digit
becomes an en dash.  The `Option Char` argument is the previous (original)
character. -/
def dashAfterDigit : Option Char → List Char → List Char
  | _, [] => []
  | prev, c :: rest =>
      let c2 := if c = '-' && (match prev with | some p => p.isDigit | none => false) then '–' else c
      c2 :: dashAfterDigit (some c) rest

/-- `re.sub(r"-(\d+)", r"–\1", s)`: a hyphen immediately followed by a digit
becomes an en dash. -/
def dashBeforeDigit : List Char → List Char
  | [] => []
  | c :: rest =>
      let c2 := if c = '-' && (match rest.head? with | some p => p.isDigit | none => false) then '–' else c
      c2 :: dashBeforeDigit rest

/-- Strip one trailing character drawn from `bad` (Python
`endswith`/slice-off-last idiom). -/
def stripTrailing (bad : List Char) (l : List Char) : List Char :=
  match l.getLast? with
  | some c => if bad.contains c then l.dropLast else l
  | none => l

/-- Python `str.strip()`: drop whitespace from both ends. -/
def pyStrip (l : List Char) : List Char :=
  ((l.dropWhile Char.isWhitespace).reverse.dropWhile Char.isWhitespace).reverse

/-- Python `sep.join(parts)` for a one-character separator. -/
def joinSep (sep : Char) : List (List Char) → List Char
  | [] => []
  | [x] => x
  | x :: y :: xs => x ++ sep :: joinSep sep (y :: xs)

/-- Keep only the alphabetic characters (second normalization pass of
`create_element`, and Python `str.isalpha` per character). -/
def filterAlpha (l : List Char) : List Char :=
  l.filter Char.isAlpha

/-- Python `needle in hay` for lists of characters: is `n` a contiguous
substring of `h`? -/
def startsList : List Char → List Char → Bool
  | [], _ => true
  | _ :: _, [] => false
  | a :: as, b :: bs => a = b && startsList as bs

def containsSub (n : List Char) : List Char → Bool
  | [] => startsList n []
  | c :: t => startsList n (c :: t) || containsSub n t

/-- Code-point comparison of strings, as Python's `<=` on `str` (used by
`sorted`): lexicographic on the character lists. -/
def charListLe : List Char → List Char → Bool
  | [], _ => true
  | _ :: _, [] => false
  | a :: as, b :: bs =>
      a.toNat < b.toNat || (a.toNat = b.toNat && charListLe as bs)

def pyStrLe (a b : String) : Bool :=
  charListLe a.data b.data

/-- Stable insertion into an ascending list: the new element goes before the
first element it compares `≤` to, so earlier elements with equal keys stay
first.  `sortAsc` is then a stable ascending sort, the behaviour of Python's
`sorted`. -/
def insAsc (le : α → α → Bool) (x : α) : List α → List α
  | [] => [x]
  | y :: ys => if le x y then x :: y :: ys else y :: insAsc le x ys

def sortAsc (le : α → α → Bool) : List α → List α
  | [] => []
  | x :: xs => insAsc le x (sortAsc le xs)

/-- Python `str.isalpha()`: non-empty and every character alphabetic. -/
def pyIsAlphaStr (s : String) : Bool :=
  !s.isEmpty && s.data.all Char.isAlpha

/-! ### `VIAF.format_date` -/

/-- The substitution `re.sub(r"^(-?\d+)(-|$)", zfill(w)(group 1) + group 2, s)`
(the sign is admitted only when `allowSign` is set, matching the pattern
`^(\d+)(-|$)` of the positive branch).  The pattern matches a leading
optional sign and digit run only when it is followed by `-` or the end of the
string; otherwise the string is returned unchanged (greedy matching cannot
succeed with a shorter digit run, because the run would then be followed by a
digit). -/
def reSubYear (w : Nat) (allowSign : Bool) (l : List Char) : List Char :=
  let sign : List Char := if allowSign && (l.head? == some '-') then ['-'] else []
  let rest := l.drop sign.length
  let ds := rest.takeWhile Char.isDigit
  let after := rest.dropWhile Char.isDigit
  if ds.isEmpty then l
  else if after.isEmpty then zfill w (sign ++ ds)
  else if after.head? == some '-' then zfill w (sign ++ ds) ++ after
  else l

/-- `VIAF.format_date`: `"0"` and `"0000"` become `None`; a date starting
with `-` has its leading sign-and-digit run zero-filled to total length 5;
any other date has its leading digit run zero-filled to length 4. -/
def formatDate (date : String) : Option String :=
  if date = "0000" ∨ date = "0" then none
  else if date.data.head? == some '-' then some (String.mk (reSubYear 5 true date.data))
  else some (String.mk (reSubYear 4 false date.data))

/-! ### The parsed record's field types

`heading["sources"]["s"]` in the upstream JSON is either a single source
code (a string) or a list of source codes, and `parse_data` stores it
unchanged; `create_element` later guards its string-join with
`isinstance(..., list)` but applies `in` and `len` to the raw value.  `SVal`
models this string-or-list value. -/

inductive SVal where
  | str (s : String)
  | list (l : List String)
  deriving DecidableEq, Repr

/-- Python `code in sources`: substring containment when `sources` is a
string, membership when it is a list. -/
def pyIn (code : String) : SVal → Bool
  | .str s => containsSub code.data s.data
  | .list l => l.contains code

/-- Python `len(sources)`: character count of a string, length of a list. -/
def pyLen : SVal → Nat
  | .str s => s.length
  | .list l => l.length

/-- `" ".join(sources) if isinstance(sources, list) else sources` (the
`source` attribute value written by `create_element`). -/
def svalJoin : SVal → String
  | .str s => s
  | .list l => String.mk (joinSep ' ' (l.map String.data))

def SVal.isList : SVal → Bool
  | .str _ => false
  | .list _ => true

/-- The sources a value denotes: a single string is one source code. -/
def srcList : SVal → List String
  | .str s => [s]
  | .list l => l

/-- The number of sources a value denotes (one for a single string). -/
def numSources (v : SVal) : Nat :=
  (srcList v).length

/-- An entry of `self.headings`: display text plus contributing sources. -/
structure Heading where
  text : String
  sources : SVal
  deriving DecidableEq, Repr

/-- A subfield of a structured heading (`@code` / `#text`). -/
structure MarcSubfield where
  code : String
  text : String
  deriving DecidableEq, Repr

/-- An entry of `self.headings_structured` or `self.name_variants`. -/
structure StructEntry where
  dtype : String
  ind1 : String
  ind2 : String
  tag : String
  subfields : List MarcSubfield
  sources : SVal
  deriving DecidableEq, Repr

/-- An entry of `self.sources` (name and external identifier, split from
`"name|id"`). -/
structure SourceCit where
  name : String
  id : String
  deriving DecidableEq, Repr

/-- A language / nationality / occupation entry (value plus sources). -/
structure NamedEntry where
  value : String
  sources : SVal
  deriving DecidableEq, Repr

/-! ### `VIAF.create_element`: display-heading selection -/

/-- Python `max(headings, key=...)`: the first element whose key attains the
maximum (a later element replaces the current champion only when its key is
strictly greater); `none` on the empty list, where Python raises
`ValueError`. -/
def pyMax (key : α → Nat) : List α → Option α
  | [] => none
  | x :: xs => some (xs.foldl (fun acc y => if key acc < key y then y else acc) x)

/-- The display-heading selection of `create_element` (the chain of
`next(...)` generator searches followed by `max`): first a heading whose
sources contain `"LC"`, else `"DNB"`, else one of the secondary set, else the
first heading with the most `len`-counted sources.  On an empty list the
final `max` raises `ValueError` (the later `self.headings[0]` fallback in the
source is unreachable). -/
def selectDisplayHeading (headings : List Heading) : Except PyErr Heading :=
  match headings.find? (fun h => pyIn "LC" h.sources) with
  | some h => .ok h
  | none =>
  match headings.find? (fun h => pyIn "DNB" h.sources) with
  | some h => .ok h
  | none =>
  match headings.find? (fun h =>
      pyIn "BNF" h.sources || pyIn "SUDOC" h.sources || pyIn "BIBSYS" h.sources ||
      pyIn "NTA" h.sources || pyIn "JPG" h.sources) with
  | some h => .ok h
  | none =>
  match pyMax (fun h => pyLen h.sources) headings with
  | some h => .ok h
  | none => .error .valueError

/-- The selector as the specification words it: membership is exact source
membership, the count is the number of sources, and ties keep the first
heading encountered. -/
def claimSelect (headings : List Heading) : Option Heading :=
  match headings.find? (fun h => (srcList h.sources).contains "LC") with
  | some h => some h
  | none =>
  match headings.find? (fun h => (srcList h.sources).contains "DNB") with
  | some h => some h
  | none =>
  match headings.find? (fun h =>
      (srcList h.sources).contains "BNF" || (srcList h.sources).contains "SUDOC" ||
      (srcList h.sources).contains "BIBSYS" || (srcList h.sources).contains "NTA" ||
      (srcList h.sources).contains "JPG") with
  | some h => some h
  | none => pyMax (fun h => numSources h.sources) headings

/-! ### `VIAF.create_element`: variant deduplication -/

/-- The fixed trust set of the preferred-source filters. -/
def trustSet : List String :=
  ["LC", "DNB", "BNF", "BAV", "JPG"]

/-- `any(source in entry["sources"] for source in ["LC","DNB","BNF","BAV","JPG"])`. -/
def trustFilter (e : StructEntry) : Bool :=
  trustSet.any (fun s => pyIn s e.sources)

/-- The entry's normalized key as computed by `create_element`: join the
texts of the alphabetic-coded subfields with spaces, strip the ends, then
keep only alphabetic characters. -/
def normalizeEntry (e : StructEntry) : List Char :=
  filterAlpha (pyStrip (joinSep ' '
    ((e.subfields.filter (fun sf => pyIsAlphaStr sf.code)).map (fun sf => sf.text.data))))

/-- One step of the dedup loops: keep the entry only if its key is new. -/
def dedupStep (key : StructEntry → List Char)
    (acc : List StructEntry × List (List Char)) (e : StructEntry) :
    List StructEntry × List (List Char) :=
  let k := key e
  if acc.2.contains k then acc else (acc.1 ++ [e], acc.2 ++ [k])

/-- The two dedup loops of `create_element`: first over the filtered
structured main headings, then over the filtered variants, with one shared
seen-set. -/
def dedupBy (key : StructEntry → List Char) (hs vs : List StructEntry) :
    List StructEntry :=
  (vs.foldl (dedupStep key) (hs.foldl (dedupStep key) ([], []))).1

/-- `structured_names` as computed by `create_element` from
`self.headings_structured` and `self.name_variants`. -/
def structuredNames (hs vs : List StructEntry) : List StructEntry :=
  dedupBy normalizeEntry (hs.filter trustFilter) (vs.filter trustFilter)

/-- The trust filter as the specification words it: the entry carries at
least one source that is in the trust set. -/
def claimTrust (e : StructEntry) : Bool :=
  (srcList e.sources).any (fun s => trustSet.contains s)

/-- The normalized key as the specification words it: concatenate the texts
of the alphabetic-coded subfields and remove every non-alphabetic
character. -/
def claimKey (e : StructEntry) : List Char :=
  filterAlpha
    ((e.subfields.filter (fun sf => pyIsAlphaStr sf.code)).map (fun sf => sf.text.data)).flatten

/-- The final variant list as the specification words it. -/
def claimVariants (hs vs : List StructEntry) : List StructEntry :=
  dedupBy claimKey (hs.filter claimTrust) (vs.filter claimTrust)

/-! ### The XML element tree -/

/-- An `lxml` element as built by `create_element`: tag, attributes in the
order `.set` was called, optional text, children in append order. -/
structure Element where
  tag : String
  attrs : List (String × String)
  text : Option String
  children : List Element
  deriving Repr

/-- The attribute key of the `xml:id` attribute
(`element.set("{...namespace}id", ...)` with the XML namespace spelled
out). -/
def xmlIdKey : String :=
  "\x7bhttp://www.w3.org/XML/1998/namespace\x7did"

def getAttr (k : String) (e : Element) : Option String :=
  (e.attrs.find? (fun p => p.1 = k)).map (fun p => p.2)

/-! ### `VIAF.create_element`: the links note -/

/-- The per-source entry of the `viaf_sources` table: the URL template and
human-readable title for the five recognized source names; `none` when
`source["name"] in viaf_sources` fails. -/
def sourceLink (s : SourceCit) : Option (String × String) :=
  if s.name = "BNF" then some ("https://data.bnf.fr/en/" ++ s.id, "BNF")
  else if s.name = "DNB" then some ("https://d-nb.info/gnd/" ++ s.id, "GND")
  else if s.name = "ISNI" then some ("https://isni.org/isni/" ++ s.id, "ISNI")
  else if s.name = "LC" then some ("https://id.loc.gov/authorities/names/" ++ s.id, "LC")
  else if s.name = "WKP" then some ("https://wikidata.org/wiki/" ++ s.id, "Wikidata")
  else none

/-- An `<item><ref target=url><title>title</title></ref></item>` element. -/
def mkLinkItem (url title : String) : Element :=
  { tag := "item", attrs := [], text := none,
    children := [{ tag := "ref", attrs := [("target", url)], text := none,
                   children := [{ tag := "title", attrs := [], text := some title,
                                  children := [] }] }] }

/-- The registry's own canonical page URL for an identifier. -/
def viafUrl (idText : String) : String :=
  "https://viaf.org/viaf/" ++ idText

/-- The sort key `item[0][0].text or ""` of the final `sorted` call: the text
of the first child (ref) of the first child (title), with `None` read as the
empty string.  Every item built by the code has both children. -/
def linkKey (e : Element) : String :=
  match e.children with
  | ref :: _ =>
      match ref.children with
      | title :: _ => title.text.getD ""
      | [] => ""
  | [] => ""

/-- The target of an item's `ref` child, if any. -/
def refTarget (e : Element) : Option String :=
  match e.children with
  | ref :: _ => getAttr "target" ref
  | [] => none

/-- The children of the links `<list>`: one item per recognized source
citation in citation order, then the always-present VIAF item, then the
in-place stable ascending sort by title text. -/
def buildLinks (sources : List SourceCit) (idText : String) : List Element :=
  sortAsc (fun a b => pyStrLe (linkKey a) (linkKey b))
    ((sources.filterMap (fun s => (sourceLink s).map (fun p => mkLinkItem p.1 p.2)))
      ++ [mkLinkItem (viafUrl idText) "VIAF"])

/-- The title table as the specification words it: `BNF→"BNF"`, `DNB→"GND"`,
`ISNI→"ISNI"`, `LC→"LC"`, `WKP→"Wikidata"`, nothing otherwise. -/
def claimTitle (s : SourceCit) : Option String :=
  if s.name = "BNF" then some "BNF"
  else if s.name = "DNB" then some "GND"
  else if s.name = "ISNI" then some "ISNI"
  else if s.name = "LC" then some "LC"
  else if s.name = "WKP" then some "Wikidata"
  else none

/-! ### `VIAF.create_element`: the whole builder -/

/-- The state of the `self.data` instance attribute: never assigned (the
invalid-identifier early return of `__post_init__` skips the assignment),
assigned `None` (fetch failure), or assigned a parsed record. -/
inductive DataAttr where
  | unset
  | null
  | json
  deriving DecidableEq, Repr

/-- The parsed fields of a `VIAF` instance after `__post_init__`. -/
structure VIAFState where
  viafId : Option Int
  dataAttr : DataAttr
  nameType : String
  sources : List SourceCit
  headings : List Heading
  headingsStructured : List StructEntry
  nameVariants : List StructEntry
  birthDate : Option String
  deathDate : Option String
  dateType : String
  gender : Option String
  languages : List NamedEntry
  nationalities : List NamedEntry
  occupations : List NamedEntry
  deriving Repr

/-- The dataclass defaults: every field empty, `self.data` never assigned. -/
def initState (id : Option Int) : VIAFState :=
  { viafId := id, dataAttr := .unset, nameType := "", sources := [],
    headings := [], headingsStructured := [], nameVariants := [],
    birthDate := none, deathDate := none, dateType := "", gender := none,
    languages := [], nationalities := [], occupations := [] }

/-- Python `str(x)` for the optional integer `self.viaf_id`. -/
def pyStrOptInt : Option Int → String
  | none => "None"
  | some n => toString n

/-- Truthiness of an optional string (`if self.birth_date:`). -/
def optStrTruthy : Option String → Bool
  | none => false
  | some s => !s.isEmpty

/-- The variant `<persName>`/`<orgName>` element for one structured name. -/
def variantElement (elementName : String) (n : StructEntry) : Element :=
  { tag := if elementName = "person" then "persName" else "orgName",
    attrs := [("source", svalJoin n.sources), ("type", "variant")] ++
      (if n.ind1 = "0" then [("subtype", "forenameFirst")]
       else if n.ind1 = "1" then [("subtype", "surnameFirst")] else []),
    text := none,
    children := (n.subfields.filter (fun sf => pyIsAlphaStr sf.code)).map
      (fun sf => { tag := "name", attrs := [("type", "marc-" ++ sf.code)],
                   text := some sf.text, children := [] }) }

/-- The birth/death/floruit elements chosen by `date_type`. -/
def dateElements (st : VIAFState) : List Element :=
  if st.dateType = "lived" then
    (if optStrTruthy st.birthDate then
      [{ tag := "birth", attrs := [("source", "VIAF"), ("when", st.birthDate.getD "")],
         text := none, children := [] }] else []) ++
    (if optStrTruthy st.deathDate then
      [{ tag := "death", attrs := [("source", "VIAF"), ("when", st.deathDate.getD "")],
         text := none, children := [] }] else [])
  else if st.dateType = "circa" then
    (if optStrTruthy st.birthDate then
      [{ tag := "birth", attrs := [("cert", "low"), ("source", "VIAF"), ("when", st.birthDate.getD "")],
         text := none, children := [] }] else []) ++
    (if optStrTruthy st.deathDate then
      [{ tag := "death", attrs := [("cert", "low"), ("source", "VIAF"), ("when", st.deathDate.getD "")],
         text := none, children := [] }] else [])
  else if st.dateType = "flourished" then
    [{ tag := "floruit",
       attrs := [("source", "VIAF")] ++
         (if optStrTruthy st.birthDate then [("notBefore", st.birthDate.getD "")] else []) ++
         (if optStrTruthy st.deathDate then [("notAfter", st.deathDate.getD "")] else []),
       text := none, children := [] }]
  else []

/-- The person-only demographic elements (sex, langKnown, nationality,
occupation), in the order the code appends them. -/
def personElements (st : VIAFState) : List Element :=
  (if optStrTruthy st.gender then
    [{ tag := "sex", attrs := [("source", "VIAF")], text := st.gender, children := [] }]
   else []) ++
  st.languages.map (fun l =>
    { tag := "langKnown", attrs := [("source", svalJoin l.sources), ("tag", l.value)],
      text := none, children := [] }) ++
  st.nationalities.map (fun n =>
    { tag := "nationality", attrs := [("source", svalJoin n.sources)],
      text := some n.value, children := [] }) ++
  st.occupations.map (fun o =>
    { tag := "occupation", attrs := [("source", svalJoin o.sources)],
      text := some o.value, children := [] })

/-- The `<note type="links">` element with its sorted link list. -/
def linksNote (st : VIAFState) : Element :=
  { tag := "note", attrs := [("type", "links")], text := none,
    children := [{ tag := "list", attrs := [("type", "links")], text := none,
                   children := buildLinks st.sources (pyStrOptInt st.viafId) }] }

/-- `VIAF.create_element`.  `self.data` never assigned raises
`AttributeError` at the first read; `self.data is None` returns `None`; a
`name_type` other than `Personal`/`Corporate` leaves `element_name`
unassigned, so building the element raises `UnboundLocalError`; an empty
headings list makes the display-heading `max` raise `ValueError`.  Otherwise
the fragment is assembled: display name, deduplicated structured variants,
dates, person-only demographics, and the sorted links note. -/
def createElement (st : VIAFState) : Except PyErr (Option Element) :=
  match st.dataAttr with
  | .unset => .error .attributeError
  | .null => .ok none
  | .json =>
    if st.nameType = "Personal" ∨ st.nameType = "Corporate" then
      let elementName := if st.nameType = "Personal" then "person" else "org"
      let elementId := elementName ++ "_" ++ pyStrOptInt st.viafId
      match selectDisplayHeading st.headings with
      | .error e => .error e
      | .ok display =>
        let displayElement : Element :=
          { tag := if elementName = "person" then "persName" else "orgName",
            attrs := [("source", svalJoin display.sources), ("type", "display")],
            text := some display.text, children := [] }
        let variants :=
          (structuredNames st.headingsStructured st.nameVariants).map
            (variantElement elementName)
        .ok (some
          { tag := elementName,
            attrs := [(xmlIdKey, elementId)],
            text := none,
            children := [displayElement] ++ variants ++ dateElements st ++
              (if elementName = "person" then personElements st else []) ++
              [linksNote st] })
    else .error .unboundLocalError

/-! ### The identifier pattern of `__post_init__`

`re.match(r"[1-9]\d(\d{0,7}|\d{17,20})", str(self.viaf_id))` is embedded by
a small regular-expression engine: `Re.matchEnds r s` is the list of
remainders of `s` after each possible match of `r` against a front segment of
`s`; `re.match` is truthy exactly when that list is non-empty. -/

inductive Re where
  | cls (p : Char → Bool)
  | seq (a b : Re)
  | alt (a b : Re)
  | rep (lo hi : Nat) (r : Re)

/-- Remainders after between `0` and `opt` repetitions of a matcher. -/
def repOpt (f : List Char → List (List Char)) : Nat → List Char → List (List Char)
  | 0, s => [s]
  | n + 1, s => s :: (f s).flatMap (repOpt f n)

/-- Remainders after `req` required repetitions followed by up to `opt`
optional ones. -/
def repReq (f : List Char → List (List Char)) : Nat → Nat → List Char → List (List Char)
  | 0, opt, s => repOpt f opt s
  | n + 1, opt, s => (f s).flatMap (repReq f n opt)

def Re.matchEnds : Re → List Char → List (List Char)
  | .cls _, [] => []
  | .cls p, c :: rest => if p c then [rest] else []
  | .seq a b, s => (a.matchEnds s).flatMap b.matchEnds
  | .alt a b, s => a.matchEnds s ++ b.matchEnds s
  | .rep lo hi r, s => repReq r.matchEnds lo (hi - lo) s

def isNonzeroDigit (c : Char) : Bool :=
  '1' ≤ c && c ≤ '9'

/-- The pattern `[1-9]\d(\d{0,7}|\d{17,20})`. -/
def viafIdRe : Re :=
  .seq (.cls isNonzeroDigit)
    (.seq (.cls Char.isDigit)
      (.alt (.rep 0 7 (.cls Char.isDigit)) (.rep 17 20 (.cls Char.isDigit))))

/-- Truthiness of `re.match(r"[1-9]\d(\d{0,7}|\d{17,20})", s)`: `re.match`
anchors only at the start of the string, so it succeeds whenever some front
segment of `s` matches the pattern. -/
def reAccepts (s : String) : Bool :=
  !(viafIdRe.matchEnds s.data).isEmpty

/-- The identifier grammar as the claim words it: a digit 1-9 followed by
1-8 more digits (2 to 9 digits in total), or 17-20 digits in total. -/
def claimGrammar (s : String) : Bool :=
  (match s.data with
   | c :: rest => isNonzeroDigit c && rest.all Char.isDigit
   | [] => false) &&
  ((2 ≤ s.length && s.length ≤ 9) || (17 ≤ s.length && s.length ≤ 20))

/-! ### The raw JSON record and `VIAF.parse_data`

A field that the upstream service returns either as a single mapping or as a
list is modelled by `SoL`; `parse_data` coerces it with an
`isinstance(..., dict)` check before iterating, which is `SoL.toList`. -/

inductive SoL (α : Type) where
  | single (a : α)
  | list (l : List α)
  deriving DecidableEq, Repr

def SoL.toList : SoL α → List α
  | .single a => [a]
  | .list l => l

/-- The coercion applied by `parse_data`: a single mapping becomes a
one-element list, a list stays itself. -/
def SoL.norm (x : SoL α) : SoL α :=
  .list x.toList

/-- Python truthiness of the raw value (`if ...["mainHeadingEl"]:`): a
mapping is truthy, a list is truthy when non-empty. -/
def SoL.truthy : SoL α → Bool
  | .single _ => true
  | .list l => !l.isEmpty

/-- A raw source citation: the `"#text"` value `"name|id"`. -/
structure RawSource where
  text : String
  deriving DecidableEq, Repr

/-- A raw main heading (`mainHeadings.data` entry): display text plus
`sources.s`. -/
structure RawHeading where
  text : String
  sourcesS : SVal
  deriving DecidableEq, Repr

structure RawSubfield where
  code : String
  text : String
  deriving DecidableEq, Repr

structure RawDatafield where
  dtype : String
  ind1 : String
  ind2 : String
  tag : String
  subfield : SoL RawSubfield
  deriving DecidableEq, Repr

/-- A raw structured heading (`mainHeadings.mainHeadingEl` or `x400s.x400`
entry). -/
structure RawStruct where
  datafield : RawDatafield
  sourcesS : SVal
  deriving DecidableEq, Repr

/-- A raw language / nationality / occupation entry. -/
structure RawNamed where
  text : String
  sourcesS : SVal
  deriving DecidableEq, Repr

/-- The `mainHeadings` mapping, which carries both the `data` entries and the
`mainHeadingEl` entries. -/
structure RawMainHeadings where
  data : SoL RawHeading
  mainHeadingEl : SoL RawStruct
  deriving DecidableEq, Repr

/-- The raw fetched JSON record.  `Option` models fields guarded by the
truthiness checks `if self.data.get(...):` (absent or empty mappings);
`birthDate`, `deathDate`, `dateType`, `nameType` and `fixed.gender` are read
unconditionally. -/
structure RawRecord where
  nameType : String
  sources : Option (SoL RawSource)
  mainHeadings : Option RawMainHeadings
  x400s : Option (SoL RawStruct)
  birthDate : String
  deathDate : String
  dateType : String
  gender : String
  languageOfEntity : Option (SoL RawNamed)
  nationalityOfEntity : Option (SoL RawNamed)
  occupation : Option (SoL RawNamed)
  deriving DecidableEq, Repr

/-- `source["#text"].split("|")` unpacked into exactly two names: any other
arity raises `ValueError`.  Spaces are then removed from the identifier
half. -/
def parseSource (s : RawSource) : Except PyErr SourceCit :=
  match s.text.splitOn "|" with
  | [n, i] => .ok { name := n, id := String.mk (i.data.filter (fun c => c ≠ ' ')) }
  | _ => .error .valueError

/-- The display-text normalization of the `mainHeadings.data` loop: collapse
whitespace runs, substitute en dashes next to digits, strip one trailing full
stop. -/
def normHeadingText (s : String) : String :=
  String.mk (stripTrailing ['.'] (dashBeforeDigit (dashAfterDigit none (collapseWs false s.data))))

def parseHeading (h : RawHeading) : Heading :=
  { text := normHeadingText h.text, sources := h.sourcesS }

/-- One structured entry: coerce the subfields to a list, strip one trailing
period or comma from each subfield text, keep the datafield attributes and
the sources. -/
def parseStruct (r : RawStruct) : StructEntry :=
  { dtype := r.datafield.dtype, ind1 := r.datafield.ind1, ind2 := r.datafield.ind2,
    tag := r.datafield.tag,
    subfields := r.datafield.subfield.toList.map (fun sf =>
      { code := sf.code, text := String.mk (stripTrailing ['.', ','] sf.text.data) }),
    sources := r.sourcesS }

def parseNamed (n : RawNamed) : NamedEntry :=
  { value := n.text, sources := n.sourcesS }

/-- `fixed.gender`: `"a"` is female, `"b"` is male, anything else absent. -/
def parseGender (g : String) : Option String :=
  if g = "a" then some "female" else if g = "b" then some "male" else none

/-- `VIAF.parse_data` on a fetched record, producing the instance fields.
The `mainHeadingEl` read (`self.data.get("mainHeadings")["mainHeadingEl"]`)
is not guarded: a record without `mainHeadings` makes it subscript `None`,
raising `TypeError`. -/
def parseData (r : RawRecord) : Except PyErr VIAFState :=
  match (match r.sources with
         | none => Except.ok []
         | some s => s.toList.mapM parseSource) with
  | .error e => .error e
  | .ok sources =>
    match r.mainHeadings with
    | none => .error .typeError
    | some mh =>
      .ok { viafId := none, dataAttr := .json, nameType := r.nameType,
            sources := sources,
            headings := mh.data.toList.map parseHeading,
            headingsStructured :=
              if mh.mainHeadingEl.truthy then mh.mainHeadingEl.toList.map parseStruct
              else [],
            nameVariants := (match r.x400s with
              | none => [] | some x => x.toList.map parseStruct),
            birthDate := formatDate r.birthDate, deathDate := formatDate r.deathDate,
            dateType := r.dateType, gender := parseGender r.gender,
            languages := (match r.languageOfEntity with
              | none => [] | some l => l.toList.map parseNamed),
            nationalities := (match r.nationalityOfEntity with
              | none => [] | some n => n.toList.map parseNamed),
            occupations := (match r.occupation with
              | none => [] | some o => o.toList.map parseNamed) }

/-- The shape normalization the invariant speaks about: every
single-or-list field of the record coerced to the list form, including the
subfields inside each structured entry. -/
def normStructRaw (r : RawStruct) : RawStruct :=
  { r with datafield := { r.datafield with subfield := r.datafield.subfield.norm } }

def normRaw (r : RawRecord) : RawRecord :=
  { r with
    sources := r.sources.map SoL.norm,
    mainHeadings := r.mainHeadings.map (fun mh =>
      { data := mh.data.norm,
        mainHeadingEl := .list (mh.mainHeadingEl.toList.map normStructRaw) }),
    x400s := r.x400s.map (fun x => .list (x.toList.map normStructRaw)),
    languageOfEntity := r.languageOfEntity.map SoL.norm,
    nationalityOfEntity := r.nationalityOfEntity.map SoL.norm,
    occupation := r.occupation.map SoL.norm }

/-! ### `VIAF.fetch_data` and `__post_init__` -/

/-- One network exchange for one requested identifier.  `ok` is a 2xx
response with a normal record body; `abandoned` is a 2xx response whose
`ns0` marks an abandoned record, carrying the `scavenged` flag and the
optional redirect target; `httpErr` is a response whose status makes
`raise_for_status` raise (the response object stays bound, so its
`status_code` is readable); `connErr` is a failure of `requests.get` itself,
after which no `response` variable was ever bound. -/
inductive NetResp where
  | ok (body : RawRecord)
  | abandoned (scavenged : Bool) (redirect : Option Int) (body : RawRecord)
  | httpErr (status : Nat)
  | connErr
  deriving Repr

/-- `VIAF.fetch_data`.  A deleted (scavenged) record reports and returns
`None` with `self.viaf_id` cleared; a redirect re-fetches the target
identifier; a 404 reports and returns `None` with the identifier cleared;
any other `RequestException` with a bound response reports and returns
`None`; but when the request itself failed (`connErr`), the handler's read
of `response.status_code` raises `UnboundLocalError`.  The result pairs the
returned data with the final value of `self.viaf_id`. -/
def fetchData (net : Option Int → NetResp) :
    Nat → Option Int → Except PyErr (Option RawRecord × Option Int)
  | 0, _ => .error .recursionError
  | fuel + 1, id =>
    match net id with
    | .ok body => .ok (some body, id)
    | .abandoned true _ _ => .ok (none, none)
    | .abandoned false (some target) _ => fetchData net fuel (some target)
    | .abandoned false none body => .ok (some body, id)
    | .httpErr status => if status = 404 then .ok (none, none) else .ok (none, id)
    | .connErr => .error .unboundLocalError

/-- `VIAF.__post_init__`: if `str(self.viaf_id)` fails the pattern, report
and return with `self.data` never assigned; otherwise fetch (possibly
following redirects) and, when a record came back, parse it. -/
def postInit (net : Option Int → NetResp) (fuel : Nat) (id : Option Int) :
    Except PyErr VIAFState :=
  if reAccepts (pyStrOptInt id) = false then .ok (initState id)
  else
    match fetchData net fuel id with
    | .error e => .error e
    | .ok (none, id2) => .ok { initState id2 with dataAttr := .null }
    | .ok (some raw, id2) =>
      match parseData raw with
      | .error e => .error e
      | .ok st => .ok { st with viafId := id2 }

/-! ### Concrete inputs used to exercise the definitions -/

/-- Two headings with no preferred source: one with two sources in list
form, one with a single source in string form (as `sources.s` arrives for a
single source). -/
def headTwoSrc : Heading :=
  { text := "A", sources := .list ["KRNLK", "NLILAT"] }

def headStrSrc : Heading :=
  { text := "B", sources := .str "NUKAT" }

/-- Headings with list-shaped sources, one of them LC-sourced. -/
def headNukat : Heading :=
  { text := "N", sources := .list ["NUKAT"] }

def headLC : Heading :=
  { text := "L", sources := .list ["LC", "DNB"] }

/-- A structured entry whose single source is the string `"XLCX"`: not a
trusted source, but the trusted code `"LC"` is a substring of it. -/
def entryXLCX : StructEntry :=
  { dtype := "MARC21", ind1 := "1", ind2 := " ", tag := "100",
    subfields := [{ code := "a", text := "Foo" }], sources := .str "XLCX" }

/-- An LC-sourced structured entry and a DNB-sourced one whose normalized
key coincides with it. -/
def entrySmithLC : StructEntry :=
  { dtype := "MARC21", ind1 := "1", ind2 := " ", tag := "100",
    subfields := [{ code := "a", text := "Smith, John" }, { code := "0", text := "xx" }],
    sources := .list ["LC"] }

def entrySmithDNB : StructEntry :=
  { dtype := "MARC21", ind1 := "0", ind2 := " ", tag := "100",
    subfields := [{ code := "a", text := "Smith. John" }],
    sources := .list ["DNB"] }

/-- A minimal well-formed raw record (used as a network response body). -/
def rawMinimal : RawRecord :=
  { nameType := "Personal",
    sources := none,
    mainHeadings := some { data := .single { text := "Smith, John", sourcesS := .list ["LC"] },
                           mainHeadingEl := .list [] },
    x400s := none, birthDate := "1900", deathDate := "1950", dateType := "lived",
    gender := "a", languageOfEntity := none, nationalityOfEntity := none,
    occupation := none }

/-- A second raw record, the body behind a redirect target. -/
def rawTarget : RawRecord :=
  { rawMinimal with nameType := "Corporate", gender := "u" }

/-- A network on which every request fails at the transport layer. -/
def netConn : Option Int → NetResp :=
  fun _ => .connErr

def net404 : Option Int → NetResp :=
  fun _ => .httpErr 404

def net500 : Option Int → NetResp :=
  fun _ => .httpErr 500

def netScavenged : Option Int → NetResp :=
  fun _ => .abandoned true none rawMinimal

/-- A network on which identifier 13 is a merge redirect to 99. -/
def netRedirect : Option Int → NetResp :=
  fun id => if id = some 13 then .abandoned false (some 99) rawMinimal else .ok rawTarget

/-- A parsed state with one LC heading and `name_type` `"Personal"`. -/
def statePersonal : VIAFState :=
  { initState (some 101) with
    dataAttr := .json,
    nameType := "Personal",
    headings := [headLC] }

/-- The same data with `name_type` `"Corporate"`. -/
def stateCorporate : VIAFState :=
  { statePersonal with nameType := "Corporate" }

/-- The same data with the undocumented `name_type` `"Expression"`. -/
def stateOther : VIAFState :=
  { statePersonal with nameType := "Expression" }

/-- A parsed personal record with an empty normalized headings list. -/
def stateNoHeadings : VIAFState :=
  { initState (some 77) with dataAttr := .json, nameType := "Personal" }

/-- Source citations titled Wikidata, GND and LC after mapping; with the
appended VIAF link these exercise the ordering scenario. -/
def exampleSources : List SourceCit :=
  [{ name := "WKP", id := "Q1" }, { name := "DNB", id := "g1" }, { name := "LC", id := "n1" }]

/-- The root tag and `xml:id` attribute of a successfully built fragment;
`none` when the builder raised or returned no fragment. -/
def rootView : Except PyErr (Option Element) → Option (String × Option String)
  | .ok (some e) => some (e.tag, getAttr xmlIdKey e)
  | _ => none

/-! ### Lemmas about the character-list helpers -/

theorem takeWhile_append_of_all (p : Char → Bool) (ds rest : List Char)
    (h : ∀ c ∈ ds, p c = true) :
    (ds ++ rest).takeWhile p = ds ++ rest.takeWhile p := by
  induction ds with
  | nil => simp
  | cons c t ih =>
      simp only [List.cons_append, List.takeWhile_cons, h c (by simp)]
      simp [ih (fun x hx => h x (by simp [hx]))]

theorem dropWhile_append_of_all (p : Char → Bool) (ds rest : List Char)
    (h : ∀ c ∈ ds, p c = true) :
    (ds ++ rest).dropWhile p = rest.dropWhile p := by
  induction ds with
  | nil => simp
  | cons c t ih =>
      simp only [List.cons_append, List.dropWhile_cons, h c (by simp)]
      simp [ih (fun x hx => h x (by simp [hx]))]

theorem not_sign_of_isDigit {c : Char} (h : c.isDigit = true) : ¬(c = '-' ∨ c = '+') := by
  rintro (rfl | rfl) <;> exact absurd h (by decide)

theorem zfill_neg (ds : List Char) :
    zfill 5 ('-' :: ds) = '-' :: (List.replicate (4 - ds.length) '0' ++ ds) := by
  unfold zfill
  simp only [List.length_cons]
  by_cases h : 4 ≤ ds.length
  · rw [if_pos (by omega : 5 ≤ ds.length + 1)]
    have h4 : 4 - ds.length = 0 := by omega
    simp [h4]
  · rw [if_neg (by omega : ¬5 ≤ ds.length + 1)]
    have h5 : 5 - (ds.length + 1) = 4 - ds.length := by omega
    simp [h5]

theorem zfill_pos (c : Char) (t : List Char) (hp : c.isDigit = true) :
    zfill 4 (c :: t) = List.replicate (4 - (c :: t).length) '0' ++ (c :: t) := by
  unfold zfill
  simp only [List.length_cons]
  by_cases h : 3 ≤ t.length
  · rw [if_pos (by omega : 4 ≤ t.length + 1)]
    have h4 : 4 - (t.length + 1) = 0 := by omega
    simp [h4]
  · rw [if_neg (by omega : ¬4 ≤ t.length + 1)]
    have h5 : 4 - (t.length + 1) = 3 - t.length := by omega
    simp [h5, not_sign_of_isDigit hp]

theorem reSubYear_neg (ds rest : List Char) (hne : ds ≠ [])
    (hds : ∀ c ∈ ds, c.isDigit = true)
    (hrest : rest = [] ∨ ∃ t, rest = '-' :: t) :
    reSubYear 5 true ('-' :: (ds ++ rest)) =
      ('-' :: (List.replicate (4 - ds.length) '0' ++ ds)) ++ rest := by
  have hie : ds.isEmpty = false := by
    cases ds with
    | nil => exact absurd rfl hne
    | cons a t => rfl
  have hdg : ('-' : Char).isDigit = false := by decide
  rcases hrest with rfl | ⟨t, rfl⟩
  · have htake : ds.takeWhile Char.isDigit = ds := by
      simpa using takeWhile_append_of_all Char.isDigit ds [] hds
    have hdrop : ds.dropWhile Char.isDigit = ([] : List Char) := by
      simpa using dropWhile_append_of_all Char.isDigit ds [] hds
    simp only [List.append_nil]
    unfold reSubYear
    simp [htake, hdrop, hie, zfill_neg]
  · have htake : (ds ++ '-' :: t).takeWhile Char.isDigit = ds := by
      rw [takeWhile_append_of_all Char.isDigit ds _ hds]
      simp [List.takeWhile_cons, hdg]
    have hdrop : (ds ++ '-' :: t).dropWhile Char.isDigit = '-' :: t := by
      rw [dropWhile_append_of_all Char.isDigit ds _ hds]
      simp [List.dropWhile_cons, hdg]
    unfold reSubYear
    simp [htake, hdrop, hie, zfill_neg]

theorem reSubYear_pos (ds rest : List Char) (hne : ds ≠ [])
    (hds : ∀ c ∈ ds, c.isDigit = true)
    (hrest : rest = [] ∨ ∃ t, rest = '-' :: t) :
    reSubYear 4 false (ds ++ rest) =
      (List.replicate (4 - ds.length) '0' ++ ds) ++ rest := by
  have hie : ds.isEmpty = false := by
    cases ds with
    | nil => exact absurd rfl hne
    | cons a t => rfl
  have hdg : ('-' : Char).isDigit = false := by decide
  obtain ⟨c, t0, rfl⟩ : ∃ c t0, ds = c :: t0 := by
    cases ds with
    | nil => exact absurd rfl hne
    | cons c t0 => exact ⟨c, t0, rfl⟩
  have hz := zfill_pos c t0 (hds c (by simp))
  rcases hrest with rfl | ⟨t, rfl⟩
  · have htake : (c :: t0).takeWhile Char.isDigit = c :: t0 := by
      simpa using takeWhile_append_of_all Char.isDigit (c :: t0) [] hds
    have hdrop : (c :: t0).dropWhile Char.isDigit = ([] : List Char) := by
      simpa using dropWhile_append_of_all Char.isDigit (c :: t0) [] hds
    simp only [List.append_nil]
    unfold reSubYear
    simp [htake, hdrop, hie, hz]
  · have htake : ((c :: t0) ++ '-' :: t).takeWhile Char.isDigit = c :: t0 := by
      rw [takeWhile_append_of_all Char.isDigit _ _ hds]
      simp [List.takeWhile_cons, hdg]
    have hdrop : ((c :: t0) ++ '-' :: t).dropWhile Char.isDigit = '-' :: t := by
      rw [dropWhile_append_of_all Char.isDigit _ _ hds]
      simp [List.dropWhile_cons, hdg]
    simp only [List.cons_append] at htake hdrop
    unfold reSubYear
    simp [htake, hdrop, hie, hz]

theorem mk_cons_ne (c : Char) (l : List Char) (s : String)
    (h : s.data.head? ≠ some c) : String.mk (c :: l) ≠ s :=
  fun he => h (he ▸ (rfl : (String.mk (c :: l)).data.head? = some c))

theorem formatDate_neg (ds rest : List Char) (hne : ds ≠ [])
    (hds : ∀ c ∈ ds, c.isDigit = true)
    (hrest : rest = [] ∨ ∃ t, rest = '-' :: t) :
    formatDate (String.mk ('-' :: (ds ++ rest))) =
      some (String.mk (('-' :: (List.replicate (4 - ds.length) '0' ++ ds)) ++ rest)) := by
  have h0 : String.mk ('-' :: (ds ++ rest)) ≠ "0000" := mk_cons_ne _ _ _ (by decide)
  have h1 : String.mk ('-' :: (ds ++ rest)) ≠ "0" := mk_cons_ne _ _ _ (by decide)
  unfold formatDate
  rw [if_neg (not_or.mpr ⟨h0, h1⟩),
    if_pos (show ((String.mk ('-' :: (ds ++ rest))).data.head? == some '-') = true from rfl)]
  exact congrArg some (congrArg String.mk (reSubYear_neg ds rest hne hds hrest))

theorem formatDate_pos (ds rest : List Char) (hne : ds ≠ [])
    (hds : ∀ c ∈ ds, c.isDigit = true)
    (hrest : rest = [] ∨ ∃ t, rest = '-' :: t)
    (h0 : String.mk (ds ++ rest) ≠ "0") (h00 : String.mk (ds ++ rest) ≠ "0000") :
    formatDate (String.mk (ds ++ rest)) =
      some (String.mk ((List.replicate (4 - ds.length) '0' ++ ds) ++ rest)) := by
  obtain ⟨c, t0, rfl⟩ : ∃ c t0, ds = c :: t0 := by
    cases ds with
    | nil => exact absurd rfl hne
    | cons c t0 => exact ⟨c, t0, rfl⟩
  have hcne : c ≠ '-' := by
    intro h
    have := hds c (by simp)
    rw [h] at this
    exact absurd this (by decide)
  have hcond : ¬(((String.mk ((c :: t0) ++ rest)).data.head? == some '-') = true) := by
    simp only [List.cons_append]
    intro h
    exact hcne (by simpa using h)
  unfold formatDate
  rw [if_neg (not_or.mpr ⟨h00, h0⟩), if_neg hcond]
  exact congrArg some (congrArg String.mk (reSubYear_pos _ rest hne hds hrest))

/-! ### Lemmas about the display-heading selector -/

theorem select_ok_of_ne_nil (hs : List Heading) (h : hs ≠ []) :
    ∃ d, selectDisplayHeading hs = .ok d := by
  unfold selectDisplayHeading
  cases h1 : hs.find? (fun h => pyIn "LC" h.sources) with
  | some d => exact ⟨d, rfl⟩
  | none =>
    cases h2 : hs.find? (fun h => pyIn "DNB" h.sources) with
    | some d => exact ⟨d, rfl⟩
    | none =>
      cases h3 : hs.find? (fun h =>
          pyIn "BNF" h.sources || pyIn "SUDOC" h.sources || pyIn "BIBSYS" h.sources ||
          pyIn "NTA" h.sources || pyIn "JPG" h.sources) with
      | some d => exact ⟨d, rfl⟩
      | none =>
        cases hs with
        | nil => exact absurd rfl h
        | cons a t => exact ⟨_, rfl⟩

theorem select_error_valueError (hs : List Heading) (e : PyErr)
    (h : selectDisplayHeading hs = .error e) : e = .valueError := by
  cases hs with
  | nil =>
      have h0 : selectDisplayHeading ([] : List Heading) = .error .valueError := rfl
      rw [h0] at h
      exact (Except.error.inj h).symm
  | cons a t =>
      obtain ⟨d, hd⟩ := select_ok_of_ne_nil (a :: t) (by simp)
      rw [hd] at h
      exact absurd h (by simp)

/-! ### Claim C3 -/

/-- C3 counterexample: the claim says `format_date` pads a negative year's
numeric portion to 5 digits, mapping `"-5"` to `"-00005"`; the code's
`zfill(5)` counts the sign toward the width, so `"-5"` becomes `"-0005"`. -/
theorem C3_counterexample :
    formatDate "-5" = some "-0005" ∧ formatDate "-5" ≠ some "-00005" := by
  decide

/-- C3 (amended): `format_date` maps `"0"` and `"0000"` to `None`; for a
date whose leading sign-and-digit run is followed by `-` or the end of the
string, only that leading run is padded, with zeros inserted after the sign
so that the sign plus digits total 5 characters for a negative date (a
4-digit numeric portion) and the digits total 4 characters for a positive
date; trailing month/day components are preserved, `"5"` maps to `"0005"`,
`"-5"` to `"-0005"`, and a 4-digit year is unchanged. -/
theorem C3_formatDate_amended :
    formatDate "0" = none ∧ formatDate "0000" = none ∧
    formatDate "5" = some "0005" ∧ formatDate "-5" = some "-0005" ∧
    formatDate "1900" = some "1900" ∧ formatDate "1900-05-12" = some "1900-05-12" ∧
    formatDate "-370-01-01" = some "-0370-01-01" ∧
    (∀ ds rest : List Char, ds ≠ [] → (∀ c ∈ ds, c.isDigit = true) →
      (rest = [] ∨ ∃ t, rest = '-' :: t) →
      formatDate (String.mk ('-' :: (ds ++ rest))) =
        some (String.mk (('-' :: (List.replicate (4 - ds.length) '0' ++ ds)) ++ rest))) ∧
    (∀ ds rest : List Char, ds ≠ [] → (∀ c ∈ ds, c.isDigit = true) →
      (rest = [] ∨ ∃ t, rest = '-' :: t) →
      String.mk (ds ++ rest) ≠ "0" → String.mk (ds ++ rest) ≠ "0000" →
      formatDate (String.mk (ds ++ rest)) =
        some (String.mk ((List.replicate (4 - ds.length) '0' ++ ds) ++ rest))) :=
  ⟨by decide, by decide, by decide, by decide, by decide, by decide, by decide,
   formatDate_neg, formatDate_pos⟩

/-- C3 witness: the general padding clauses of the amended claim evaluated
at `"-370-01"` and at `"370-01"`. -/
theorem C3_witness :
    formatDate (String.mk ('-' :: (['3', '7', '0'] ++ ['-', '0', '1']))) =
      some (String.mk (('-' :: (List.replicate (4 - ['3', '7', '0'].length) '0' ++ ['3', '7', '0'])) ++ ['-', '0', '1'])) ∧
    formatDate (String.mk (['3', '7', '0'] ++ ['-', '0', '1'])) =
      some (String.mk ((List.replicate (4 - ['3', '7', '0'].length) '0' ++ ['3', '7', '0']) ++ ['-', '0', '1'])) :=
  ⟨C3_formatDate_amended.2.2.2.2.2.2.2.1 ['3', '7', '0'] ['-', '0', '1']
      (by decide) (by decide) (Or.inr ⟨['0', '1'], rfl⟩),
   C3_formatDate_amended.2.2.2.2.2.2.2.2 ['3', '7', '0'] ['-', '0', '1']
      (by decide) (by decide) (Or.inr ⟨['0', '1'], rfl⟩) (by decide) (by decide)⟩

/-! ### Claim C4 -/

/-- C4: `fetch_data` degrades a 404, a scavenged record, and an HTTP error
with a bound response to "no record", and follows a merge redirect by
re-fetching the target; but on a transport-level failure (where
`requests.get` itself raised and no `response` was bound) the handler's read
of `response.status_code` raises `UnboundLocalError` past the boundary,
contradicting the claim that fetch never raises. -/
theorem C4_fetchData :
    fetchData netConn 3 (some 10) = .error .unboundLocalError ∧
    fetchData net404 3 (some 11) = .ok (none, none) ∧
    fetchData netScavenged 3 (some 12) = .ok (none, none) ∧
    fetchData net500 3 (some 14) = .ok (none, some 14) ∧
    fetchData netRedirect 3 (some 13) = .ok (some rawTarget, some 99) := by
  refine ⟨rfl, rfl, rfl, rfl, rfl⟩

/-! ### Claim C7 -/

/-- C7: on a record whose normalized headings list is empty, the
display-heading selection raises `ValueError` (from `max` on an empty
sequence), so `create_element` signals an error instead of producing a
fragment with an arbitrary or empty display name. -/
theorem C7_emptyHeadings :
    selectDisplayHeading [] = .error .valueError ∧
    ∀ st : VIAFState, st.dataAttr = .json → st.headings = [] →
      (st.nameType = "Personal" ∨ st.nameType = "Corporate") →
      createElement st = .error .valueError := by
  constructor
  · rfl
  · intro st h1 h2 h3
    simp only [createElement, h1, h2]
    rw [if_pos h3]
    rfl

/-- C7 witness: a parsed personal record with no headings makes the builder
signal `ValueError`. -/
theorem C7_witness : createElement stateNoHeadings = .error .valueError :=
  C7_emptyHeadings.2 stateNoHeadings rfl rfl (Or.inl rfl)

/-! ### Claim C8 -/

/-- C8: after a fetch failure `create_element` returns no fragment without
raising; but for a grammar-rejected identifier `__post_init__` returns
before ever assigning `self.data`, so `create_element` raises
`AttributeError` instead of returning `None`. -/
theorem C8_noRecord :
    postInit netConn 3 (some 5) = .ok (initState (some 5)) ∧
    createElement (initState (some 5)) = .error .attributeError ∧
    createElement { initState (some 7) with dataAttr := .null } = .ok none := by
  refine ⟨?_, rfl, rfl⟩
  rfl

/-! ### Claim C10 -/

/-- C10: with data present, a `"Personal"` record either signals the
empty-headings `ValueError` or yields a root `person` with identifier
`person_{viaf_id}`; a `"Corporate"` record likewise yields `org` with
`org_{viaf_id}`; and any other `name_type` leaves `element_name` unassigned,
so the builder raises `UnboundLocalError` instead of returning a fragment or
`None`. -/
theorem C10_nameType :
    (∀ st : VIAFState, st.dataAttr = .json → st.nameType = "Personal" →
      (createElement st = .error .valueError ∨
        rootView (createElement st) =
          some ("person", some ("person_" ++ pyStrOptInt st.viafId)))) ∧
    (∀ st : VIAFState, st.dataAttr = .json → st.nameType = "Corporate" →
      (createElement st = .error .valueError ∨
        rootView (createElement st) =
          some ("org", some ("org_" ++ pyStrOptInt st.viafId)))) ∧
    (∀ st : VIAFState, st.dataAttr = .json →
      st.nameType ≠ "Personal" → st.nameType ≠ "Corporate" →
      createElement st = .error .unboundLocalError) := by
  refine ⟨?_, ?_, ?_⟩
  · intro st h1 h2
    cases hsel : selectDisplayHeading st.headings with
    | error e =>
        left
        have he := select_error_valueError _ _ hsel
        subst he
        simp only [createElement, h1]
        rw [if_pos (Or.inl h2), hsel]
    | ok d =>
        right
        simp only [createElement, h1]
        rw [if_pos (Or.inl h2), hsel]
        simp [rootView, getAttr, h2]
  · intro st h1 h2
    cases hsel : selectDisplayHeading st.headings with
    | error e =>
        left
        have he := select_error_valueError _ _ hsel
        subst he
        simp only [createElement, h1]
        rw [if_pos (Or.inr h2), hsel]
    | ok d =>
        right
        simp only [createElement, h1]
        rw [if_pos (Or.inr h2), hsel]
        simp [rootView, getAttr, h2]
  · intro st h1 h2 h3
    simp only [createElement, h1]
    rw [if_neg (not_or.mpr ⟨h2, h3⟩)]

/-- C10 witness: the three clauses evaluated on a parsed record with one
LC-sourced heading under each of the three `name_type` values. -/
theorem C10_witness :
    (createElement statePersonal = .error .valueError ∨
      rootView (createElement statePersonal) =
        some ("person", some ("person_" ++ pyStrOptInt statePersonal.viafId))) ∧
    (createElement stateCorporate = .error .valueError ∨
      rootView (createElement stateCorporate) =
        some ("org", some ("org_" ++ pyStrOptInt stateCorporate.viafId))) ∧
    createElement stateOther = .error .unboundLocalError :=
  ⟨C10_nameType.1 statePersonal rfl rfl,
   C10_nameType.2.1 stateCorporate rfl rfl,
   C10_nameType.2.2 stateOther rfl (by decide) (by decide)⟩

/-! ### Claim C6 -/

theorem viafIdRe_ends (l : List Char) :
    viafIdRe.matchEnds l ≠ [] ↔
      ∃ c1 c2 rest, l = c1 :: c2 :: rest ∧ isNonzeroDigit c1 = true ∧ c2.isDigit = true := by
  cases l with
  | nil => simp [viafIdRe, Re.matchEnds]
  | cons c1 l1 =>
    by_cases h1 : isNonzeroDigit c1 = true
    · cases l1 with
      | nil => simp [viafIdRe, Re.matchEnds, h1]
      | cons c2 l2 =>
        by_cases h2 : c2.isDigit = true
        · constructor
          · intro _
            exact ⟨c1, c2, l2, rfl, h1, h2⟩
          · intro _
            simp [viafIdRe, Re.matchEnds, h1, h2, repReq, repOpt]
        · simp [viafIdRe, Re.matchEnds, h1, h2]
    · simp only [viafIdRe, Re.matchEnds, h1]
      simp
      intro x y hx t hl hz
      subst hx
      exact absurd hz h1

/-- C6 counterexample: the 11-digit identifier 12345678901 fails the claim's
grammar, yet the code accepts it: `re.match` leaves the end of the string
unanchored and the `\d\x7b0,7\x7d` branch can match zero repetitions, so any
identifier whose decimal form starts with a nonzero digit followed by a
digit passes the check. -/
theorem C6_counterexample :
    reAccepts (pyStrOptInt (some 12345678901)) = true ∧
    claimGrammar (pyStrOptInt (some 12345678901)) = false := by
  decide

/-- C6 (amended): an identifier is accepted exactly when its string form
starts with a digit 1-9 followed by another digit (the pattern's tail can
match the empty string and the match is not anchored at the end, so no upper
length bound and no all-digits condition is enforced); every rejected
identifier is reported invalid and its processing stops before any network
request: the constructed state has `self.data` unset and does not depend on
the network. -/
theorem C6_identifier_amended :
    (∀ s : String, reAccepts s = true ↔
      ∃ c1 c2 rest, s.data = c1 :: c2 :: rest ∧
        isNonzeroDigit c1 = true ∧ c2.isDigit = true) ∧
    (∀ (net : Option Int → NetResp) (fuel : Nat) (id : Option Int),
      reAccepts (pyStrOptInt id) = false →
      postInit net fuel id = .ok (initState id)) := by
  constructor
  · intro s
    have h := viafIdRe_ends s.data
    constructor
    · intro hr
      apply h.mp
      intro hnil
      simp [reAccepts, hnil] at hr
    · intro he
      have := h.mpr he
      simp [reAccepts]
      exact this
  · intro net fuel id h
    simp [postInit, h]

/-- C6 witness: the amended acceptance criterion at `"34512366"`, and the
rejected identifier 7 yielding the untouched initial state on a network that
would fail every request. -/
theorem C6_witness :
    reAccepts "34512366" = true ∧
    postInit netConn 3 (some 7) = .ok (initState (some 7)) :=
  ⟨(C6_identifier_amended.1 "34512366").mpr
      ⟨'3', '4', ['5', '1', '2', '3', '6', '6'], rfl, by decide, by decide⟩,
   C6_identifier_amended.2 netConn 3 (some 7) (by decide)⟩

/-! ### Claim C1 -/

theorem find?_congr {α : Type} (p q : α → Bool) (l : List α)
    (h : ∀ x ∈ l, p x = q x) : l.find? p = l.find? q := by
  induction l with
  | nil => rfl
  | cons a t ih =>
      simp only [List.find?]
      rw [h a (by simp)]
      cases hq : q a with
      | true => rfl
      | false => exact ih (fun x hx => h x (by simp [hx]))

theorem foldlMax_congr {α : Type} (k1 k2 : α → Nat) (l : List α)
    (h : ∀ x ∈ l, k1 x = k2 x) :
    ∀ a, k1 a = k2 a →
      l.foldl (fun acc y => if k1 acc < k1 y then y else acc) a =
      l.foldl (fun acc y => if k2 acc < k2 y then y else acc) a := by
  induction l with
  | nil =>
      intro a _
      rfl
  | cons b t ih =>
      intro a ha
      simp only [List.foldl]
      rw [ha, h b (by simp)]
      by_cases hc : k2 a < k2 b
      · rw [if_pos hc]
        exact ih (fun x hx => h x (by simp [hx])) b (h b (by simp))
      · rw [if_neg hc]
        exact ih (fun x hx => h x (by simp [hx])) a ha

theorem pyMax_congr {α : Type} (k1 k2 : α → Nat) (l : List α)
    (h : ∀ x ∈ l, k1 x = k2 x) : pyMax k1 l = pyMax k2 l := by
  cases l with
  | nil => rfl
  | cons a t =>
      simp only [pyMax]
      rw [foldlMax_congr k1 k2 t (fun x hx => h x (by simp [hx])) a (h a (by simp))]

theorem pyIn_isList (code : String) (v : SVal) (h : v.isList = true) :
    pyIn code v = (srcList v).contains code := by
  cases v with
  | str s => simp [SVal.isList] at h
  | list l => rfl

theorem pyLen_isList (v : SVal) (h : v.isList = true) : pyLen v = numSources v := by
  cases v with
  | str s => simp [SVal.isList] at h
  | list l => rfl

/-- C1 counterexample: with the single-string source value `"NUKAT"` (one
source), `len` counts 5 characters, so the code's `max` prefers it over a
heading carrying two sources; the claim's selector (most sources,
first-encountered on ties) picks the two-source heading instead, and no
priority source is present. -/
theorem C1_counterexample :
    selectDisplayHeading [headTwoSrc, headStrSrc] = .ok headStrSrc ∧
    claimSelect [headTwoSrc, headStrSrc] = some headTwoSrc ∧
    headStrSrc ≠ headTwoSrc ∧
    numSources headStrSrc.sources < numSources headTwoSrc.sources := by
  refine ⟨rfl, rfl, by decide, by decide⟩

/-- C1 (amended): for every record whose headings all carry list-shaped
sources, the display heading is chosen exactly by the claimed priority
order: an LC-sourced heading, else DNB, else one of
\x7bBNF, SUDOC, BIBSYS, NTA, JPG\x7d, else the heading with the strictly
greatest number of sources, a later heading with an equal count never
replacing the current choice; when a heading's sources arrive as a single
string the code instead tests substring containment and compares character
counts. -/
theorem C1_selector_amended (hs : List Heading) (d : Heading)
    (h : ∀ x ∈ hs, x.sources.isList = true) :
    selectDisplayHeading hs = .ok d ↔ claimSelect hs = some d := by
  have e1 : hs.find? (fun x => pyIn "LC" x.sources) =
      hs.find? (fun x => (srcList x.sources).contains "LC") :=
    find?_congr _ _ hs (fun x hx => pyIn_isList _ _ (h x hx))
  have e2 : hs.find? (fun x => pyIn "DNB" x.sources) =
      hs.find? (fun x => (srcList x.sources).contains "DNB") :=
    find?_congr _ _ hs (fun x hx => pyIn_isList _ _ (h x hx))
  have e3 : hs.find? (fun x =>
        pyIn "BNF" x.sources || pyIn "SUDOC" x.sources || pyIn "BIBSYS" x.sources ||
        pyIn "NTA" x.sources || pyIn "JPG" x.sources) =
      hs.find? (fun x =>
        (srcList x.sources).contains "BNF" || (srcList x.sources).contains "SUDOC" ||
        (srcList x.sources).contains "BIBSYS" || (srcList x.sources).contains "NTA" ||
        (srcList x.sources).contains "JPG") :=
    find?_congr _ _ hs (fun x hx => by
      rw [pyIn_isList _ _ (h x hx), pyIn_isList _ _ (h x hx), pyIn_isList _ _ (h x hx),
        pyIn_isList _ _ (h x hx), pyIn_isList _ _ (h x hx)])
  have e4 : pyMax (fun x => pyLen x.sources) hs =
      pyMax (fun x => numSources x.sources) hs :=
    pyMax_congr _ _ hs (fun x hx => pyLen_isList _ (h x hx))
  unfold selectDisplayHeading claimSelect
  rw [e1, e2, e3, e4]
  cases hs.find? (fun x => (srcList x.sources).contains "LC") with
  | some x => simp
  | none =>
  cases hs.find? (fun x => (srcList x.sources).contains "DNB") with
  | some x => simp
  | none =>
  cases hs.find? (fun x =>
      (srcList x.sources).contains "BNF" || (srcList x.sources).contains "SUDOC" ||
      (srcList x.sources).contains "BIBSYS" || (srcList x.sources).contains "NTA" ||
      (srcList x.sources).contains "JPG") with
  | some x => simp
  | none =>
  cases pyMax (fun x => numSources x.sources) hs with
  | some x => simp
  | none => simp

/-- C1 witness: the amended selector on two list-sourced headings picks the
LC-sourced one. -/
theorem C1_witness : selectDisplayHeading [headNukat, headLC] = .ok headLC :=
  (C1_selector_amended [headNukat, headLC] headLC (by decide)).mpr (by decide)

/-! ### Claim C2 -/

theorem ws_not_alpha {c : Char} (h : c.isWhitespace = true) : c.isAlpha = false := by
  simp [Char.isWhitespace] at h
  rcases h with (((h | h) | h) | h) <;> subst h <;> decide

theorem filterAlpha_append (a b : List Char) :
    filterAlpha (a ++ b) = filterAlpha a ++ filterAlpha b :=
  List.filter_append a b

theorem filterAlpha_dropWhile_ws (l : List Char) :
    filterAlpha (l.dropWhile Char.isWhitespace) = filterAlpha l := by
  induction l with
  | nil => rfl
  | cons c t ih =>
      by_cases h : c.isWhitespace = true
      · simp only [List.dropWhile_cons, h, if_true, ih]
        simp [filterAlpha, List.filter_cons, ws_not_alpha h]
      · simp [List.dropWhile_cons, h]

theorem filterAlpha_reverse (l : List Char) :
    filterAlpha l.reverse = (filterAlpha l).reverse :=
  List.filter_reverse Char.isAlpha l

theorem filterAlpha_pyStrip (l : List Char) :
    filterAlpha (pyStrip l) = filterAlpha l := by
  unfold pyStrip
  rw [filterAlpha_reverse, filterAlpha_dropWhile_ws, filterAlpha_reverse,
    List.reverse_reverse, filterAlpha_dropWhile_ws]

theorem filterAlpha_joinSep_space (ts : List (List Char)) :
    filterAlpha (joinSep ' ' ts) = filterAlpha ts.flatten := by
  induction ts with
  | nil => rfl
  | cons x ys ih =>
      cases ys with
      | nil => simp [joinSep, List.flatten]
      | cons y t =>
          simp only [joinSep, List.flatten_cons]
          rw [filterAlpha_append, filterAlpha_append]
          have hsp : filterAlpha (' ' :: joinSep ' ' (y :: t)) =
              filterAlpha (joinSep ' ' (y :: t)) := by
            simp [filterAlpha, List.filter_cons]
          rw [hsp, ih, List.flatten_cons]

theorem normalizeEntry_eq_claimKey (e : StructEntry) :
    normalizeEntry e = claimKey e := by
  unfold normalizeEntry claimKey
  rw [filterAlpha_pyStrip, filterAlpha_joinSep_space]

theorem trustFilter_isList (e : StructEntry) (h : e.sources.isList = true) :
    trustFilter e = claimTrust e := by
  cases hv : e.sources with
  | str s => rw [hv] at h; simp [SVal.isList] at h
  | list l =>
      simp only [trustFilter, claimTrust, hv, pyIn, srcList]
      rw [Bool.eq_iff_iff]
      simp only [List.any_eq_true, List.contains, List.elem_iff]
      exact ⟨fun ⟨c, hc, hm⟩ => ⟨c, hm, hc⟩, fun ⟨c, hc, hm⟩ => ⟨c, hm, hc⟩⟩

/-- C2 counterexample: the entry whose only source is the string `"XLCX"`
carries no source from the trust set, yet it survives the code's filter
(Python `in` tests the substring `"LC"` against the single-string source
value) and appears in the final variant list, refuting "entries failing the
trust filter appear nowhere in the output". -/
theorem C2_counterexample :
    structuredNames [entryXLCX] [] = [entryXLCX] ∧
    claimTrust entryXLCX = false ∧
    claimVariants [entryXLCX] [] = [] := by
  refine ⟨rfl, by decide, rfl⟩

/-- C2 (amended): for records whose structured main headings and alternates
all carry list-shaped sources, the final variant list equals the
trust-filtered (at least one source in \x7bLC, DNB, BNF, BAV, JPG\x7d)
structured mains in original order, first entry per normalized key, followed
by the trust-filtered alternates under the same continuing seen-key set,
where an entry's key concatenates the texts of its alphabetic-coded
subfields and drops every non-alphabetic character; when an entry's sources
arrive as a single string the code's filter instead tests substring
containment against that string. -/
theorem C2_variants_amended (hs vs : List StructEntry)
    (h : ∀ e ∈ hs ++ vs, e.sources.isList = true) :
    structuredNames hs vs = claimVariants hs vs := by
  have hf : normalizeEntry = claimKey := funext normalizeEntry_eq_claimKey
  have h1 : hs.filter trustFilter = hs.filter claimTrust :=
    List.filter_congr (fun x hx => trustFilter_isList x (h x (by simp [hx])))
  have h2 : vs.filter trustFilter = vs.filter claimTrust :=
    List.filter_congr (fun x hx => trustFilter_isList x (h x (by simp [hx])))
  unfold structuredNames claimVariants
  rw [hf, h1, h2]

/-- C2 witness: the amended dedup on two list-sourced entries with the same
normalized key keeps only the first. -/
theorem C2_witness :
    structuredNames [entrySmithLC, entrySmithDNB] [] =
      claimVariants [entrySmithLC, entrySmithDNB] [] ∧
    structuredNames [entrySmithLC, entrySmithDNB] [] = [entrySmithLC] :=
  ⟨C2_variants_amended [entrySmithLC, entrySmithDNB] [] (by decide), by decide⟩

/-! ### Claim C5 -/

theorem insAsc_perm {α : Type} (le : α → α → Bool) (x : α) (l : List α) :
    List.Perm (insAsc le x l) (x :: l) := by
  induction l with
  | nil => exact List.Perm.refl _
  | cons y ys ih =>
      by_cases h : le x y = true
      · simp [insAsc, h]
      · simp only [insAsc, h, if_false]
        exact (ih.cons y).trans (List.Perm.swap x y ys)

theorem sortAsc_perm {α : Type} (le : α → α → Bool) (l : List α) :
    List.Perm (sortAsc le l) l := by
  induction l with
  | nil => exact List.Perm.refl _
  | cons x xs ih => exact (insAsc_perm le x (sortAsc le xs)).trans (ih.cons x)

theorem insAsc_pairwise {α : Type} (le : α → α → Bool)
    (htot : ∀ a b, le a b = true ∨ le b a = true)
    (htr : ∀ a b c, le a b = true → le b c = true → le a c = true)
    (x : α) (l : List α) (hl : List.Pairwise (fun a b => le a b = true) l) :
    List.Pairwise (fun a b => le a b = true) (insAsc le x l) := by
  induction l with
  | nil => simp [insAsc]
  | cons y ys ih =>
      cases hl with
      | cons hy hys =>
        by_cases h : le x y = true
        · simp only [insAsc, h, if_true]
          refine List.Pairwise.cons ?_ (List.Pairwise.cons hy hys)
          intro z hz
          rcases List.mem_cons.mp hz with rfl | hz2
          · exact h
          · exact htr x y z h (hy z hz2)
        · simp only [insAsc, h, if_false]
          refine List.Pairwise.cons ?_ (ih hys)
          intro z hz
          rcases List.mem_cons.mp ((insAsc_perm le x ys).mem_iff.mp hz) with hzx | hz2
          · rw [hzx]
            rcases htot x y with hxy | hyx
            · exact absurd hxy h
            · exact hyx
          · exact hy z hz2

theorem sortAsc_pairwise {α : Type} (le : α → α → Bool)
    (htot : ∀ a b, le a b = true ∨ le b a = true)
    (htr : ∀ a b c, le a b = true → le b c = true → le a c = true)
    (l : List α) :
    List.Pairwise (fun a b => le a b = true) (sortAsc le l) := by
  induction l with
  | nil => exact List.Pairwise.nil
  | cons x xs ih => exact insAsc_pairwise le htot htr x _ ih

theorem charListLe_total (a b : List Char) :
    charListLe a b = true ∨ charListLe b a = true := by
  induction a generalizing b with
  | nil => exact Or.inl rfl
  | cons x xs ih =>
      cases b with
      | nil => exact Or.inr rfl
      | cons y ys =>
          rcases Nat.lt_trichotomy x.toNat y.toNat with h | h | h
          · left
            simp [charListLe, h]
          · rcases ih ys with h2 | h2
            · left
              simp [charListLe, h, h2]
            · right
              simp [charListLe, h.symm, h2]
          · right
            simp [charListLe, h]

theorem charListLe_trans (a b c : List Char) (h1 : charListLe a b = true)
    (h2 : charListLe b c = true) : charListLe a c = true := by
  induction a generalizing b c with
  | nil => rfl
  | cons x xs ih =>
      cases b with
      | nil => simp [charListLe] at h1
      | cons y ys =>
          cases c with
          | nil => simp [charListLe] at h2
          | cons z zs =>
              simp only [charListLe, Bool.or_eq_true, Bool.and_eq_true,
                decide_eq_true_eq] at h1 h2 ⊢
              rcases h1 with h1 | ⟨h1e, h1r⟩
              · rcases h2 with h2 | ⟨h2e, h2r⟩
                · exact Or.inl (by omega)
                · exact Or.inl (by omega)
              · rcases h2 with h2 | ⟨h2e, h2r⟩
                · exact Or.inl (by omega)
                · exact Or.inr ⟨by omega, ih ys zs h1r h2r⟩

theorem filterMap_congr {α β : Type} (f g : α → Option β) (l : List α)
    (h : ∀ x ∈ l, f x = g x) : l.filterMap f = l.filterMap g := by
  induction l with
  | nil => rfl
  | cons a t ih =>
      simp only [List.filterMap_cons, h a (by simp)]
      cases g a <;> simp [ih (fun x hx => h x (by simp [hx]))]

theorem linkKey_mkLinkItem (u t : String) : linkKey (mkLinkItem u t) = t :=
  rfl

/-- C5: the links note contains one link per source citation whose name is
in \x7bBNF, DNB, ISNI, LC, WKP\x7d titled BNF, GND, ISNI, LC, Wikidata
respectively, plus exactly one link to the registry's canonical page titled
VIAF; the whole list is sorted ascending by title text (code-point order,
a missing title reading as the empty string); sources mapping to the titles
Wikidata, GND and LC come out ordered GND, LC, VIAF, Wikidata. -/
theorem C5_links (sources : List SourceCit) (idText : String) :
    List.Perm ((buildLinks sources idText).map linkKey)
      ((sources.filterMap claimTitle) ++ ["VIAF"]) ∧
    List.Pairwise (fun a b => pyStrLe (linkKey a) (linkKey b) = true)
      (buildLinks sources idText) ∧
    mkLinkItem (viafUrl idText) "VIAF" ∈ buildLinks sources idText ∧
    (buildLinks exampleSources "123").map linkKey = ["GND", "LC", "VIAF", "Wikidata"] := by
  refine ⟨?_, ?_, ?_, by decide⟩
  · unfold buildLinks
    refine ((sortAsc_perm _ _).map linkKey).trans ?_
    rw [List.map_append]
    have hmap : (sources.filterMap
          (fun s => (sourceLink s).map (fun p => mkLinkItem p.1 p.2))).map linkKey
        = sources.filterMap claimTitle := by
      rw [List.map_filterMap]
      refine filterMap_congr _ _ sources (fun s _ => ?_)
      rw [Option.map_map]
      unfold sourceLink claimTitle
      split_ifs <;> rfl
    rw [hmap]
    exact List.Perm.refl _
  · unfold buildLinks
    exact sortAsc_pairwise _
      (fun a b => charListLe_total (linkKey a).data (linkKey b).data)
      (fun a b c => charListLe_trans (linkKey a).data (linkKey b).data (linkKey c).data) _
  · unfold buildLinks
    exact (sortAsc_perm _ _).mem_iff.mpr (by simp)

/-! ### Claim C9 -/

theorem SoL.toList_norm {α : Type} (x : SoL α) : x.norm.toList = x.toList :=
  rfl

theorem SoL.truthy_norm {α : Type} (x : SoL α) : x.norm.truthy = x.truthy := by
  cases x <;> rfl

theorem SoL.norm_norm {α : Type} (x : SoL α) : x.norm.norm = x.norm :=
  rfl

theorem parseStruct_norm (r : RawStruct) :
    parseStruct (normStructRaw r) = parseStruct r :=
  rfl

theorem comp_parseStruct_norm : parseStruct ∘ normStructRaw = parseStruct :=
  funext fun r => parseStruct_norm r

theorem normStructRaw_idem (r : RawStruct) :
    normStructRaw (normStructRaw r) = normStructRaw r :=
  rfl

theorem comp_normStructRaw_idem : normStructRaw ∘ normStructRaw = normStructRaw :=
  funext fun r => normStructRaw_idem r

theorem map_normStructRaw_idem (l : List RawStruct) :
    (l.map normStructRaw).map normStructRaw = l.map normStructRaw := by
  rw [List.map_map, comp_normStructRaw_idem]

theorem normEl_truthy (x : SoL RawStruct) :
    (SoL.list (x.toList.map normStructRaw)).truthy = x.truthy := by
  cases x with
  | single a => rfl
  | list l => cases l <;> rfl

theorem normEl_entries (x : SoL RawStruct) :
    (SoL.list (x.toList.map normStructRaw)).toList.map parseStruct =
      x.toList.map parseStruct := by
  show (x.toList.map normStructRaw).map parseStruct = x.toList.map parseStruct
  rw [List.map_map, comp_parseStruct_norm]

/-- C9: the parser's result is invariant under pre-coercing every
single-or-list field (source citations, main headings, structured main
headings, structured alternates, their subfields, and the
language/nationality/occupation entries) to its list form, so no consumer of
the parsed record can observe whether the single or the list form arrived;
and the coercion is idempotent, so it happens effectively once. -/
theorem C9_parse_shape (r : RawRecord) :
    parseData (normRaw r) = parseData r ∧ normRaw (normRaw r) = normRaw r := by
  obtain ⟨nt, so, mh, x4, bd, dd, dt, g, lg, na, oc⟩ := r
  constructor
  · cases so <;> cases mh <;> cases x4 <;> cases lg <;> cases na <;> cases oc <;>
      simp [parseData, normRaw, SoL.toList_norm, SoL.truthy_norm,
        normEl_truthy, normEl_entries]
  · cases so <;> cases mh <;> cases x4 <;> cases lg <;> cases na <;> cases oc <;>
      simp [normRaw, SoL.norm_norm, SoL.toList_norm, SoL.toList,
        map_normStructRaw_idem, normStructRaw_idem]
